import Mathlib

/-!
Shallow embedding of the EMG acquisition script (`src/azmuth.py`) and
verification of its specified properties.

Modelling conventions:
* Python floats are modelled as rationals (`ℚ`); the successive `time.time()`
  readings taken by the acquisition loop are supplied as explicit inputs.
* A serial line is a `List Char`; `re.findall` with the digit-run pattern
  becomes the maximal-digit-run splitter `digitRuns`.
* Python `int(q)` applied to a float truncates toward zero: `int_trunc`.
* The module-level configuration constants of the script become Lean
  constants of the same name; the acquisition-loop functions take
  `dur`/`reps`/`total` as parameters so that properties can be stated for
  the configuration surface described by the specification (the script
  itself always passes the constants below).
* I/O faults during the export phase are injected as explicit boolean fault
  flags; an uncaught Python exception is modelled by the `aborted` flag of
  `ExportResult`.
-/

namespace Azmuth

/-- `DURATION_PER_REP = 3` (seconds per repetition). -/
def DURATION_PER_REP : ℚ := 3

/-- `REPETITIONS = 15` (repetitions per gesture). -/
def REPETITIONS : ℤ := 15

/-- `TOTAL_DURATION = DURATION_PER_REP * REPETITIONS`. -/
def TOTAL_DURATION : ℚ := DURATION_PER_REP * (REPETITIONS : ℚ)

/-- Default `vref=3.3` of `adc_to_volt`. -/
def VREF_DEFAULT : ℚ := 33 / 10

/-- Default `resolution=4095` of `adc_to_volt`. -/
def ADC_RES_DEFAULT : ℤ := 4095

/-- `PLOT_UPDATE_INTERVAL = 0.05`. -/
def PLOT_UPDATE_INTERVAL : ℚ := 1 / 20

/-- Python `int()` applied to a rational: truncation toward zero. -/
def int_trunc (q : ℚ) : ℤ := if q < 0 then ⌈q⌉ else ⌊q⌋

/-- Helper for `digitRuns`: scans the character list, accumulating the current
run of digits (in reverse) in `acc`. -/
def digitRunsAux : List Char → List Char → List (List Char)
  | [], acc => if acc = [] then [] else [acc.reverse]
  | c :: cs, acc =>
    if c.isDigit then digitRunsAux cs (c :: acc)
    else if acc = [] then digitRunsAux cs []
    else acc.reverse :: digitRunsAux cs []

/-- Embedding of `re.findall` with the one-or-more-digits pattern: the list of
maximal digit runs of the line, in order of appearance. -/
def digitRuns (line : List Char) : List (List Char) := digitRunsAux line []

/-- Value of a digit string, as Python `int` computes it on an all-digit
string (most significant digit first). -/
def natOfDigits (s : List Char) : ℕ :=
  s.foldl (fun n c => 10 * n + (c.toNat - 48)) 0

/-- Embedding of Python `int(s)` as used on a candidate digit run: succeeds
exactly on nonempty all-digit strings, otherwise signals `ValueError` by
returning `none`. -/
def intOfString (s : List Char) : Option ℕ :=
  if s ≠ [] ∧ s.all Char.isDigit then some (natOfDigits s) else none

/-- Embedding of `parse_dual_channel` (src/azmuth.py lines 57-69): find all
maximal digit runs; if at least two exist, convert the first two, falling back
to the failure sentinel if a conversion raises `ValueError`; otherwise fail. -/
def parse_dual_channel (line : List Char) : Option (ℕ × ℕ) :=
  let nums := digitRuns line
  if 2 ≤ nums.length then
    match intOfString (nums.getD 0 []), intOfString (nums.getD 1 []) with
    | some a, some b => some (a, b)
    | _, _ => none
  else none

/-- Embedding of `adc_to_volt` (src/azmuth.py lines 77-82):
`(adc_value / resolution) * vref`, with the `ZeroDivisionError` raised when
`resolution = 0` caught and turned into `0.0`. -/
def adc_to_volt (adc_value : ℤ) (vref : ℚ) (resolution : ℤ) : ℚ :=
  if resolution = 0 then 0 else ((adc_value : ℚ) / (resolution : ℚ)) * vref

/-- Embedding of src/azmuth.py lines 151-153:
`rep_idx = int(t // DURATION_PER_REP) + 1` followed by the clamp
`if rep_idx > REPETITIONS: rep_idx = REPETITIONS`.  Python float
floor-division of `t` by `dur` is `⌊t / dur⌋`. -/
def rep_index (t dur : ℚ) (reps : ℤ) : ℤ :=
  let r := ⌊t / dur⌋ + 1
  if r > reps then reps else r

/-- One CSV row of the per-gesture buffer `rows`
(`[ms, adc_ch1, volt_ch1, adc_ch2, volt_ch2, rep]`, src/azmuth.py line 165). -/
structure Row where
  ms : ℤ
  adc_ch1 : ℕ
  volt_ch1 : ℚ
  adc_ch2 : ℕ
  volt_ch2 : ℚ
  rep : ℤ
deriving Repr, DecidableEq

/-- The row appended for a parsed sample `(t, ch1, ch2)`
(src/azmuth.py lines 164-165): `ms = int(t * 1000)`, raw and calibrated value
per channel (`adc_to_volt` called with its default arguments), and the
repetition index of `t`. -/
def rowOf (dur : ℚ) (reps : ℤ) (s : ℚ × ℕ × ℕ) : Row :=
  { ms := int_trunc (s.1 * 1000)
    adc_ch1 := s.2.1
    volt_ch1 := adc_to_volt (s.2.1 : ℤ) VREF_DEFAULT ADC_RES_DEFAULT
    adc_ch2 := s.2.2
    volt_ch2 := adc_to_volt (s.2.2 : ℤ) VREF_DEFAULT ADC_RES_DEFAULT
    rep := rep_index s.1 dur reps }

/-- The mutable per-gesture state of `record_gesture`: the four parallel
buffers (src/azmuth.py lines 100-103) plus `current_rep` (line 134) and the
sequence of repetition-change notifications printed so far (line 158). -/
structure SessionState where
  timestamps : List ℚ
  emg1 : List ℕ
  emg2 : List ℕ
  rows : List Row
  current_rep : ℤ
  notifications : List ℤ
deriving Repr, DecidableEq

/-- State at the start of recording: empty buffers, `current_rep = 1`,
nothing notified yet. -/
def initState : SessionState :=
  { timestamps := [], emg1 := [], emg2 := [], rows := [],
    current_rep := 1, notifications := [] }

/-- One iteration of the acquisition loop, as seen from outside: the elapsed
time observed at the `while` condition (`check`), the line made available by
the transport this iteration (if any), and the elapsed time observed at
`t = time.time() - overall_start` (line 149). -/
structure Tick where
  check : ℚ
  lineRead : Option (List Char)
  t : ℚ
deriving Repr, DecidableEq

/-- Processing of one successfully parsed sample `(t, ch1, ch2)`
(src/azmuth.py lines 149-165): compute the repetition index, emit a
notification if it changed, append to the three display buffers and append
the export row. -/
def stepSample (dur : ℚ) (reps : ℤ) (st : SessionState) (s : ℚ × ℕ × ℕ) :
    SessionState :=
  let rep_idx := rep_index s.1 dur reps
  let st1 :=
    if rep_idx ≠ st.current_rep then
      { st with current_rep := rep_idx,
                notifications := st.notifications ++ [rep_idx] }
    else st
  { st1 with
    timestamps := st1.timestamps ++ [s.1]
    emg1 := st1.emg1 ++ [s.2.1]
    emg2 := st1.emg2 ++ [s.2.2]
    rows := st1.rows ++ [rowOf dur reps s] }

/-- Body of one loop iteration (src/azmuth.py lines 139-165): if a line is
available, decode it; skip empty lines; skip unparseable lines; otherwise
process the sample.  Plot updates (lines 167-189) do not touch the buffers
and are omitted. -/
def stepTick (dur : ℚ) (reps : ℤ) (st : SessionState) (tk : Tick) :
    SessionState :=
  match tk.lineRead with
  | none => st
  | some l =>
    if l = [] then st
    else
      match parse_dual_channel l with
      | none => st
      | some (ch1, ch2) => stepSample dur reps st (tk.t, ch1, ch2)

/-- The acquisition loop (src/azmuth.py line 138):
`while (time.time() - overall_start) < TOTAL_DURATION`, one `stepTick` per
iteration; the loop exits at the first iteration whose `check` reading
reaches `total`. -/
def runLoop (dur : ℚ) (reps : ℤ) (total : ℚ) :
    SessionState → List Tick → SessionState
  | st, [] => st
  | st, tk :: tks =>
    if tk.check < total then runLoop dur reps total (stepTick dur reps st tk) tks
    else st

/-- The sample (timestamp and two raw channel values) extracted by one
iteration, if that iteration appends one. -/
def parsedOf (tk : Tick) : Option (ℚ × ℕ × ℕ) :=
  match tk.lineRead with
  | none => none
  | some l =>
    if l = [] then none
    else
      match parse_dual_channel l with
      | none => none
      | some (ch1, ch2) => some (tk.t, ch1, ch2)

/-- The samples the loop appends for a given tick sequence: those of the
iterations before the guard first fails. -/
def samplesOf (total : ℚ) (ticks : List Tick) : List (ℚ × ℕ × ℕ) :=
  (ticks.takeWhile (fun tk => decide (tk.check < total))).filterMap parsedOf

/-- The notifications produced by the `if rep_idx != current_rep` check of
src/azmuth.py lines 156-158, starting from current index `c`: one entry per
index transition, at the first sample whose index differs from its
predecessor (or from `c` for the first sample). -/
def transitions (c : ℤ) : List ℤ → List ℤ
  | [] => []
  | r :: rs => if r = c then transitions c rs else r :: transitions r rs

/-- The value of `current_rep` after processing samples with the given
repetition indices, starting from `c`. -/
def lastRep (c : ℤ) : List ℤ → ℤ
  | [] => c
  | r :: rs => lastRep r rs

/-- The repetition indices of a sample list. -/
def repsOf (dur : ℚ) (reps : ℤ) (samples : List (ℚ × ℕ × ℕ)) : List ℤ :=
  samples.map (fun s => rep_index s.1 dur reps)

/-- Outcome of the save phase of `record_gesture` for one gesture:
whether the empty-buffer warning was printed, whether the CSV file and the
chart image were written, and whether an exception escaped `record_gesture`
(the function has no handler around the save phase, only a `finally`). -/
structure ExportResult where
  warnedEmpty : Bool
  csvWritten : Bool
  chartWritten : Bool
  aborted : Bool
deriving Repr, DecidableEq

/-- Embedding of the save phase (src/azmuth.py lines 199-222) with injected
I/O faults: if `rows` is empty, warn and write nothing; otherwise write the
CSV (a fault there raises), then, when `timestamps` is nonempty, save the
chart (a fault there raises).  A raise skips everything after it and escapes
`record_gesture`. -/
def exportPhase (st : SessionState) (csvFault chartFault : Bool) :
    ExportResult :=
  if st.rows.length = 0 then
    { warnedEmpty := true, csvWritten := false, chartWritten := false,
      aborted := false }
  else if csvFault then
    { warnedEmpty := false, csvWritten := false, chartWritten := false,
      aborted := true }
  else if st.timestamps.length = 0 then
    { warnedEmpty := false, csvWritten := true, chartWritten := false,
      aborted := false }
  else if chartFault then
    { warnedEmpty := false, csvWritten := true, chartWritten := false,
      aborted := true }
  else
    { warnedEmpty := false, csvWritten := true, chartWritten := true,
      aborted := false }

/-- Embedding of the catalog iteration of `main` (src/azmuth.py lines
240-250): one `record_gesture` per gesture in order; an exception escaping
`record_gesture` propagates through the `try/finally` of `main` and stops the
iteration.  Each gesture is given by its final session state and its two
injected export-fault flags. -/
def runCatalog : List (SessionState × Bool × Bool) → List ExportResult
  | [] => []
  | g :: rest =>
    let r := exportPhase g.1 g.2.1 g.2.2
    if r.aborted then [r] else r :: runCatalog rest

/-- The line `"EMG1:10 EMG2:20 extra:30"` of the specification's scenario. -/
def emgLine : List Char :=
  ['E', 'M', 'G', '1', ':', '1', '0', ' ', 'E', 'M', 'G', '2', ':', '2', '0',
   ' ', 'e', 'x', 't', 'r', 'a', ':', '3', '0']

/-- The line `"abc"`. -/
def abcLine : List Char := ['a', 'b', 'c']

/-- The line `"100,200"` of the specification's scenario. -/
def line100200 : List Char := ['1', '0', '0', ',', '2', '0', '0']

/-- Scenario ticks: lines `"100,200"` at simulated times `0.5, 3.5, 5.9`. -/
def scTicks : List Tick :=
  [{ check := 1/2, lineRead := some line100200, t := 1/2 },
   { check := 7/2, lineRead := some line100200, t := 7/2 },
   { check := 59/10, lineRead := some line100200, t := 59/10 }]

/-- A tick whose sample timestamp is `0.0017` seconds: `t * 1000 = 1.7`. -/
def msTick : Tick :=
  { check := 1/1000, lineRead := some line100200, t := 17/10000 }

/-- Ticks none of which carries a parsable line. -/
def badTicks : List Tick :=
  [{ check := 1, lineRead := some abcLine, t := 1 },
   { check := 2, lineRead := none, t := 2 },
   { check := 3, lineRead := some [], t := 3 }]

/-- A session state holding one sample, used as a concrete non-empty buffer. -/
def exState : SessionState :=
  { timestamps := [1/2], emg1 := [100], emg2 := [200],
    rows := [rowOf 3 2 (1/2, 100, 200)], current_rep := 1,
    notifications := [] }

/-! ## Helper lemmas: the repetition segmenter -/

theorem rep_index_eq_min (t dur : ℚ) (reps : ℤ) :
    rep_index t dur reps = min (⌊t / dur⌋ + 1) reps := by
  unfold rep_index
  rcases lt_or_ge reps (⌊t / dur⌋ + 1) with h | h
  · simp [h, min_eq_right h.le]
  · simp [not_lt.mpr h, min_eq_left h]

theorem rep_index_mono {t₁ t₂ : ℚ} (dur : ℚ) (reps : ℤ) (hd : 0 < dur)
    (h : t₁ ≤ t₂) : rep_index t₁ dur reps ≤ rep_index t₂ dur reps := by
  rw [rep_index_eq_min, rep_index_eq_min]
  have hdiv : t₁ / dur ≤ t₂ / dur := by gcongr
  exact min_le_min (add_le_add_right (Int.floor_le_floor hdiv) 1) le_rfl

theorem rep_index_pos {t dur : ℚ} (reps : ℤ) (hd : 0 < dur) (ht : 0 ≤ t)
    (hr : 1 ≤ reps) : 1 ≤ rep_index t dur reps := by
  rw [rep_index_eq_min]
  refine le_min ?_ hr
  have : (0 : ℤ) ≤ ⌊t / dur⌋ := Int.floor_nonneg.mpr (div_nonneg ht hd.le)
  omega

theorem rep_index_le (t dur : ℚ) (reps : ℤ) :
    rep_index t dur reps ≤ reps := by
  rw [rep_index_eq_min]; exact min_le_right _ _

theorem rep_index_mul {dur : ℚ} (reps k : ℤ) (hd : 0 < dur)
    (hk : k ≤ reps - 1) : rep_index ((k : ℚ) * dur) dur reps = k + 1 := by
  rw [rep_index_eq_min]
  have : ((k : ℚ) * dur) / dur = (k : ℚ) := mul_div_cancel_right₀ _ hd.ne'
  rw [this, Int.floor_intCast]
  exact min_eq_left (by omega)

/-! ## Helper lemmas: the line parser -/

theorem digitRunsAux_mem :
    ∀ (cs acc : List Char), (∀ c ∈ acc, c.isDigit) →
      ∀ r ∈ digitRunsAux cs acc, r ≠ [] ∧ ∀ c ∈ r, c.isDigit
  | [], acc, hacc => by
    unfold digitRunsAux
    split
    · simp
    · next h =>
      intro r hr
      simp only [List.mem_singleton] at hr
      subst hr
      refine ⟨by simpa using h, ?_⟩
      intro c hc
      exact hacc c (List.mem_reverse.mp hc)
  | c :: cs, acc, hacc => by
    unfold digitRunsAux
    by_cases hc : c.isDigit
    · simp only [hc, if_true]
      refine digitRunsAux_mem cs (c :: acc) ?_
      intro x hx
      rcases List.mem_cons.mp hx with h | h
      · exact h ▸ hc
      · exact hacc x h
    · simp only [hc, Bool.false_eq_true, if_false]
      by_cases ha : acc = []
      · simp only [ha, if_true]
        exact digitRunsAux_mem cs [] (by simp)
      · simp only [ha, if_false]
        intro r hr
        rcases List.mem_cons.mp hr with h | h
        · subst h
          refine ⟨by simpa using ha, ?_⟩
          intro x hx
          exact hacc x (List.mem_reverse.mp hx)
        · exact digitRunsAux_mem cs [] (by simp) r h

theorem digitRuns_mem (line : List Char) :
    ∀ r ∈ digitRuns line, r ≠ [] ∧ ∀ c ∈ r, c.isDigit :=
  digitRunsAux_mem line [] (by simp)

theorem intOfString_of_run {line : List Char} {r : List Char}
    (hr : r ∈ digitRuns line) : intOfString r = some (natOfDigits r) := by
  obtain ⟨hne, hdig⟩ := digitRuns_mem line r hr
  unfold intOfString
  rw [if_pos ⟨hne, List.all_eq_true.mpr hdig⟩]

theorem digitRuns_getD_mem {line : List Char} {i : ℕ}
    (h : i < (digitRuns line).length) :
    (digitRuns line).getD i [] ∈ digitRuns line := by
  rw [List.getD_eq_getElem?_getD, List.getElem?_eq_getElem h]
  exact List.getElem_mem h

theorem parse_dual_channel_of_two {line : List Char}
    (h : 2 ≤ (digitRuns line).length) :
    parse_dual_channel line =
      some (natOfDigits ((digitRuns line).getD 0 []),
            natOfDigits ((digitRuns line).getD 1 [])) := by
  unfold parse_dual_channel
  rw [if_pos h,
    intOfString_of_run (digitRuns_getD_mem (by omega)),
    intOfString_of_run (digitRuns_getD_mem (by omega))]

theorem parse_dual_channel_of_lt_two {line : List Char}
    (h : (digitRuns line).length < 2) : parse_dual_channel line = none := by
  unfold parse_dual_channel
  rw [if_neg (by omega)]

/-! ## Helper lemmas: the acquisition loop -/

theorem stepTick_eq_parsedOf (dur : ℚ) (reps : ℤ) (st : SessionState)
    (tk : Tick) :
    stepTick dur reps st tk =
      match parsedOf tk with
      | none => st
      | some s => stepSample dur reps st s := by
  unfold stepTick parsedOf
  rcases tk.lineRead with _ | l
  · rfl
  · by_cases hl : l = []
    · simp [hl]
    · simp only [hl, if_false]
      rcases h : parse_dual_channel l with _ | ⟨ch1, ch2⟩ <;> simp

theorem runLoop_eq_takeWhile (dur : ℚ) (reps : ℤ) (total : ℚ) :
    ∀ (ticks : List Tick) (st : SessionState),
      runLoop dur reps total st ticks =
        (ticks.takeWhile (fun tk => decide (tk.check < total))).foldl
          (stepTick dur reps) st
  | [], st => rfl
  | tk :: tks, st => by
    unfold runLoop
    by_cases h : tk.check < total
    · rw [if_pos h, List.takeWhile_cons, if_pos (by simpa using h),
        List.foldl_cons]
      exact runLoop_eq_takeWhile dur reps total tks (stepTick dur reps st tk)
    · rw [if_neg h, List.takeWhile_cons, if_neg (by simpa using h)]
      rfl

theorem foldl_stepTick_eq_filterMap (dur : ℚ) (reps : ℤ) :
    ∀ (ticks : List Tick) (st : SessionState),
      ticks.foldl (stepTick dur reps) st =
        (ticks.filterMap parsedOf).foldl (stepSample dur reps) st
  | [], st => rfl
  | tk :: tks, st => by
    rw [List.foldl_cons, List.filterMap_cons, stepTick_eq_parsedOf]
    rcases h : parsedOf tk with _ | s
    · exact foldl_stepTick_eq_filterMap dur reps tks st
    · rw [List.foldl_cons]
      exact foldl_stepTick_eq_filterMap dur reps tks (stepSample dur reps st s)

theorem runLoop_eq_samples (dur : ℚ) (reps : ℤ) (total : ℚ)
    (ticks : List Tick) (st : SessionState) :
    runLoop dur reps total st ticks =
      (samplesOf total ticks).foldl (stepSample dur reps) st := by
  rw [runLoop_eq_takeWhile, foldl_stepTick_eq_filterMap, samplesOf]

theorem foldl_stepSample_eq (dur : ℚ) (reps : ℤ) :
    ∀ (samples : List (ℚ × ℕ × ℕ)) (st : SessionState),
      samples.foldl (stepSample dur reps) st =
        { timestamps := st.timestamps ++ samples.map (fun s => s.1)
          emg1 := st.emg1 ++ samples.map (fun s => s.2.1)
          emg2 := st.emg2 ++ samples.map (fun s => s.2.2)
          rows := st.rows ++ samples.map (rowOf dur reps)
          current_rep := lastRep st.current_rep (repsOf dur reps samples)
          notifications :=
            st.notifications ++
              transitions st.current_rep (repsOf dur reps samples) }
  | [], st => by simp [repsOf, transitions, lastRep]
  | s :: ss, st => by
    rw [List.foldl_cons, foldl_stepSample_eq dur reps ss]
    by_cases h : rep_index s.1 dur reps = st.current_rep
    · simp [stepSample, h, repsOf, transitions, lastRep, List.append_assoc]
    · simp [stepSample, h, repsOf, transitions, lastRep, List.append_assoc]

theorem runLoop_char (dur : ℚ) (reps : ℤ) (total : ℚ) (ticks : List Tick) :
    runLoop dur reps total initState ticks =
      { timestamps := (samplesOf total ticks).map (fun s => s.1)
        emg1 := (samplesOf total ticks).map (fun s => s.2.1)
        emg2 := (samplesOf total ticks).map (fun s => s.2.2)
        rows := (samplesOf total ticks).map (rowOf dur reps)
        current_rep := lastRep 1 (repsOf dur reps (samplesOf total ticks))
        notifications :=
          transitions 1 (repsOf dur reps (samplesOf total ticks)) } := by
  rw [runLoop_eq_samples, foldl_stepSample_eq]
  rfl

/-! ## Helper lemmas: ordering of the produced samples -/

theorem parsedOf_t {tk : Tick} {s : ℚ × ℕ × ℕ} (h : parsedOf tk = some s) :
    s.1 = tk.t := by
  obtain ⟨check, lineRead, t⟩ := tk
  unfold parsedOf at h
  rcases lineRead with _ | l
  · exact absurd h (by simp)
  · simp only at h
    by_cases hl : l = []
    · rw [if_pos hl] at h
      exact absurd h (by simp)
    · rw [if_neg hl] at h
      rcases hp : parse_dual_channel l with _ | ⟨ch1, ch2⟩
      · rw [hp] at h; exact absurd h (by simp)
      · rw [hp] at h
        cases h
        rfl

theorem filterMap_parsedOf_fst_sublist :
    ∀ ticks : List Tick,
      ((ticks.filterMap parsedOf).map (fun s => s.1)).Sublist
        (ticks.map Tick.t)
  | [] => List.Sublist.refl _
  | tk :: tks => by
    rw [List.filterMap_cons, List.map_cons]
    rcases h : parsedOf tk with _ | s
    · exact (filterMap_parsedOf_fst_sublist tks).cons _
    · rw [List.map_cons, parsedOf_t h]
      exact (filterMap_parsedOf_fst_sublist tks).cons₂ _

theorem samplesOf_fst_sublist (total : ℚ) (ticks : List Tick) :
    ((samplesOf total ticks).map (fun s => s.1)).Sublist (ticks.map Tick.t) :=
  (filterMap_parsedOf_fst_sublist _).trans
    ((List.takeWhile_sublist _).map Tick.t)

theorem samplesOf_fst_pairwise {total : ℚ} {ticks : List Tick}
    (hmono : (ticks.map Tick.t).Pairwise (· ≤ ·)) :
    ((samplesOf total ticks).map (fun s => s.1)).Pairwise (· ≤ ·) :=
  hmono.sublist (samplesOf_fst_sublist total ticks)

theorem samplesOf_fst_nonneg {total : ℚ} {ticks : List Tick}
    (h0 : ∀ tk ∈ ticks, 0 ≤ tk.t) {x : ℚ}
    (hx : x ∈ (samplesOf total ticks).map (fun s => s.1)) : 0 ≤ x := by
  have := (samplesOf_fst_sublist total ticks).subset hx
  obtain ⟨tk, htk, rfl⟩ := List.mem_map.mp this
  exact h0 tk htk

theorem repsOf_eq_map_fst (dur : ℚ) (reps : ℤ)
    (samples : List (ℚ × ℕ × ℕ)) :
    repsOf dur reps samples =
      (samples.map (fun s => s.1)).map (fun t => rep_index t dur reps) := by
  rw [repsOf, List.map_map]
  rfl

theorem repsOf_pairwise {dur total : ℚ} {reps : ℤ} {ticks : List Tick}
    (hd : 0 < dur) (hmono : (ticks.map Tick.t).Pairwise (· ≤ ·)) :
    (repsOf dur reps (samplesOf total ticks)).Pairwise (· ≤ ·) := by
  rw [repsOf_eq_map_fst]
  exact List.pairwise_map.mpr
    ((samplesOf_fst_pairwise hmono).imp (rep_index_mono dur reps hd))

theorem repsOf_one_le {dur total : ℚ} {reps : ℤ} {ticks : List Tick}
    (hd : 0 < dur) (hr : 1 ≤ reps) (h0 : ∀ tk ∈ ticks, 0 ≤ tk.t) :
    ∀ x ∈ repsOf dur reps (samplesOf total ticks), 1 ≤ x := by
  rw [repsOf_eq_map_fst]
  intro x hx
  obtain ⟨t, ht, rfl⟩ := List.mem_map.mp hx
  exact rep_index_pos reps hd (samplesOf_fst_nonneg h0 ht) hr

/-! ## Helper lemmas: transitions of a monotone index sequence -/

theorem transitions_lt :
    ∀ (l : List ℤ) (c : ℤ), l.Pairwise (· ≤ ·) → (∀ x ∈ l, c ≤ x) →
      (∀ x ∈ transitions c l, c < x) ∧
        (transitions c l).Chain' (· < ·)
  | [], c, _, _ => by simp [transitions]
  | r :: rs, c, hp, hc => by
    have hr : ∀ x ∈ rs, r ≤ x := (List.pairwise_cons.mp hp).1
    have hp' : rs.Pairwise (· ≤ ·) := (List.pairwise_cons.mp hp).2
    by_cases h : r = c
    · rw [transitions, if_pos h]
      exact transitions_lt rs c hp'
        (fun x hx => hc x (List.mem_cons_of_mem _ hx))
    · have hcr : c < r :=
        lt_of_le_of_ne (hc r (List.mem_cons_self _ _)) (Ne.symm h)
      obtain ⟨ih1, ih2⟩ := transitions_lt rs r hp' hr
      rw [transitions, if_neg h]
      constructor
      · intro x hx
        rcases List.mem_cons.mp hx with rfl | hx
        · exact hcr
        · exact hcr.trans (ih1 x hx)
      · refine List.chain'_cons'.mpr ⟨?_, ih2⟩
        intro y hy
        exact ih1 y (List.mem_of_mem_head? hy)

/-! ## Helper lemmas: projections of the produced rows -/

theorem zip_map_triple {α β γ δ : Type} (f : α → β) (g : α → γ) (h : α → δ) :
    ∀ l : List α,
      (l.map f).zip ((l.map g).zip (l.map h)) =
        l.map (fun x => (f x, g x, h x))
  | [] => rfl
  | x :: xs => by
    rw [List.map_cons, List.map_cons, List.map_cons, List.zip_cons_cons,
      List.zip_cons_cons, List.map_cons, zip_map_triple f g h xs]

theorem rows_map_rep (dur : ℚ) (reps : ℤ) (samples : List (ℚ × ℕ × ℕ)) :
    (samples.map (rowOf dur reps)).map Row.rep = repsOf dur reps samples := by
  rw [List.map_map, repsOf]
  rfl

theorem rows_map_ms (dur : ℚ) (reps : ℤ) (samples : List (ℚ × ℕ × ℕ)) :
    (samples.map (rowOf dur reps)).map Row.ms =
      (samples.map (fun s => s.1)).map (fun t => int_trunc (t * 1000)) := by
  rw [List.map_map, List.map_map]
  rfl

theorem int_trunc_mul_mono {a b : ℚ} (ha : 0 ≤ a) (h : a ≤ b) :
    int_trunc (a * 1000) ≤ int_trunc (b * 1000) := by
  have ha' : ¬ a * 1000 < 0 := not_lt.mpr (by positivity)
  have hb' : ¬ b * 1000 < 0 := not_lt.mpr (mul_nonneg (ha.trans h) (by norm_num))
  rw [int_trunc, int_trunc, if_neg ha', if_neg hb']
  exact Int.floor_le_floor (by gcongr)

/-! ## Helper lemmas: concrete scenario computations -/

theorem parse_line100200 : parse_dual_channel line100200 = some (100, 200) := by
  decide

theorem line100200_ne : ¬ line100200 = [] := by decide

theorem parsedOf_100200 (c t : ℚ) :
    parsedOf { check := c, lineRead := some line100200, t := t } =
      some (t, 100, 200) := by
  unfold parsedOf
  simp [line100200_ne, parse_line100200]

theorem samplesOf_scTicks :
    samplesOf 6 scTicks =
      [(1/2, 100, 200), (7/2, 100, 200), (59/10, 100, 200)] := by
  norm_num [samplesOf, scTicks, List.takeWhile_cons, List.filterMap_cons,
    parsedOf_100200]

theorem samplesOf_scTicks_take2 :
    samplesOf 6 (scTicks.take 2) = [(1/2, 100, 200), (7/2, 100, 200)] := by
  norm_num [samplesOf, scTicks, List.takeWhile_cons, List.filterMap_cons,
    parsedOf_100200]

theorem samplesOf_scTicks_take1 :
    samplesOf 6 (scTicks.take 1) = [(1/2, 100, 200)] := by
  norm_num [samplesOf, scTicks, List.takeWhile_cons, List.filterMap_cons,
    parsedOf_100200]

theorem sc_rep1 : rep_index (1/2) 3 2 = 1 := by
  rw [rep_index_eq_min]; norm_num

theorem sc_rep2 : rep_index (7/2) 3 2 = 2 := by
  rw [rep_index_eq_min]; norm_num

theorem sc_rep3 : rep_index (59/10) 3 2 = 2 := by
  rw [rep_index_eq_min]; norm_num

theorem samplesOf_msTick :
    samplesOf TOTAL_DURATION [msTick] = [(17/10000, 100, 200)] := by
  norm_num [samplesOf, msTick, TOTAL_DURATION, DURATION_PER_REP, REPETITIONS,
    List.takeWhile_cons, List.filterMap_cons, parsedOf_100200]

/-! ## The claims -/

/-- C3: for `elapsed ≥ 0`, `duration_per_rep > 0` and `repetitions ≥ 1`, the
repetition index equals `⌊elapsed / duration_per_rep⌋ + 1` clamped above at
`repetitions`; it lies in `[1, repetitions]`, is monotonically non-decreasing
in `elapsed`, and at `elapsed = k * duration_per_rep` for every integer
`k ∈ [1, repetitions - 1]` it equals `k + 1`. -/
theorem C3_segmenter (t dur : ℚ) (reps : ℤ) (ht : 0 ≤ t) (hd : 0 < dur)
    (hr : 1 ≤ reps) :
    rep_index t dur reps = min (⌊t / dur⌋ + 1) reps ∧
    1 ≤ rep_index t dur reps ∧
    rep_index t dur reps ≤ reps ∧
    (∀ t₂, t ≤ t₂ → rep_index t dur reps ≤ rep_index t₂ dur reps) ∧
    (∀ k : ℤ, 1 ≤ k → k ≤ reps - 1 →
      rep_index ((k : ℚ) * dur) dur reps = k + 1) :=
  ⟨rep_index_eq_min t dur reps, rep_index_pos reps hd ht hr,
   rep_index_le t dur reps,
   fun _ h => rep_index_mono dur reps hd h,
   fun k _ hk => rep_index_mul reps k hd hk⟩

/-- Witness for C3 at `dur = 3`, `repetitions = 15`, `k = 2`. -/
theorem C3_segmenter_witness :
    rep_index (((2 : ℤ) : ℚ) * 3) 3 15 = (2 : ℤ) + 1 :=
  (C3_segmenter 0 3 15 le_rfl (by norm_num) (by norm_num)).2.2.2.2 2
    (by norm_num) (by norm_num)

/-- C4: for every line with at least two maximal digit runs,
`parse_dual_channel` returns exactly the first two runs (in order of
appearance) converted to integers, whatever the rest of the line looks like;
for fewer than two runs it returns the failure sentinel. -/
theorem C4_first_two_runs (line : List Char) :
    (2 ≤ (digitRuns line).length →
      parse_dual_channel line =
        some (natOfDigits ((digitRuns line).getD 0 []),
              natOfDigits ((digitRuns line).getD 1 []))) ∧
    ((digitRuns line).length < 2 → parse_dual_channel line = none) :=
  ⟨fun h => parse_dual_channel_of_two h,
   fun h => parse_dual_channel_of_lt_two h⟩

/-- Witness for C4 on the label-prefixed scenario line and on `"abc"`. -/
theorem C4_first_two_runs_witness :
    parse_dual_channel emgLine =
      some (natOfDigits ((digitRuns emgLine).getD 0 []),
            natOfDigits ((digitRuns emgLine).getD 1 [])) ∧
    parse_dual_channel abcLine = none :=
  ⟨(C4_first_two_runs emgLine).1 (by decide),
   (C4_first_two_runs abcLine).2 (by decide)⟩

/-- C8: the calibrator returns `(raw / resolution) * vref` whenever
`resolution > 0`, and `0` when `resolution = 0` instead of failing; hence
`to_volts 0 vref resolution = 0` and
`to_volts resolution vref resolution = vref` for `resolution > 0`. -/
theorem C8_calibrator (raw : ℤ) (vref : ℚ) (resolution : ℤ)
    (h : 0 < resolution) :
    adc_to_volt raw vref resolution = ((raw : ℚ) / (resolution : ℚ)) * vref ∧
    adc_to_volt raw vref 0 = 0 ∧
    adc_to_volt 0 vref resolution = 0 ∧
    adc_to_volt resolution vref resolution = vref := by
  have hne : (resolution : ℚ) ≠ 0 := Int.cast_ne_zero.mpr h.ne'
  refine ⟨?_, ?_, ?_, ?_⟩
  · rw [adc_to_volt, if_neg h.ne']
  · rw [adc_to_volt, if_pos rfl]
  · rw [adc_to_volt, if_neg h.ne']
    simp
  · rw [adc_to_volt, if_neg h.ne', div_self hne, one_mul]

/-- Witness for C8 at the script's own configuration `vref = 3.3`,
`resolution = 4095`. -/
theorem C8_calibrator_witness :
    adc_to_volt 4095 (33/10) 4095 = 33/10 :=
  (C8_calibrator 4095 (33/10) 4095 (by norm_num)).2.2.2

/-- C9: integer conversion succeeds on every maximal digit run, so the
`ValueError` fallback of `parse_dual_channel` is unreachable: the parser
fails exactly when the line has fewer than two digit runs (and, being a total
Lean function, it never raises). -/
theorem C9_conversion_total (line : List Char) :
    (∀ r ∈ digitRuns line, intOfString r = some (natOfDigits r)) ∧
    (parse_dual_channel line = none ↔ (digitRuns line).length < 2) := by
  refine ⟨fun _ hr => intOfString_of_run hr, ?_, parse_dual_channel_of_lt_two⟩
  intro h
  by_contra hlt
  rw [parse_dual_channel_of_two (by omega)] at h
  exact Option.noConfusion h

/-- Witness for C9 on a concrete digit run of the scenario line. -/
theorem C9_conversion_total_witness :
    intOfString ['1', '0'] = some (natOfDigits ['1', '0']) :=
  (C9_conversion_total emgLine).1 ['1', '0'] (by decide)

/-- C5: every sample appended during a session appears as exactly one row of
the written table, in append order — the row list is exactly the image of the
zipped buffers under the row construction — of equal length as the timestamp
buffer, and each row's volt fields are the calibrator applied to that row's
raw channel values with the session's reference voltage and resolution. -/
theorem C5_round_trip (dur total : ℚ) (reps : ℤ) (ticks : List Tick) :
    (runLoop dur reps total initState ticks).rows =
      ((runLoop dur reps total initState ticks).timestamps.zip
        ((runLoop dur reps total initState ticks).emg1.zip
          (runLoop dur reps total initState ticks).emg2)).map
        (rowOf dur reps) ∧
    (runLoop dur reps total initState ticks).rows.length =
      (runLoop dur reps total initState ticks).timestamps.length ∧
    ∀ r ∈ (runLoop dur reps total initState ticks).rows,
      r.volt_ch1 = adc_to_volt (r.adc_ch1 : ℤ) VREF_DEFAULT ADC_RES_DEFAULT ∧
      r.volt_ch2 = adc_to_volt (r.adc_ch2 : ℤ) VREF_DEFAULT ADC_RES_DEFAULT := by
  rw [runLoop_char]
  refine ⟨?_, by simp, ?_⟩
  · show (samplesOf total ticks).map (rowOf dur reps) = _
    rw [zip_map_triple]
    have he : (fun s : ℚ × ℕ × ℕ => (s.1, s.2.1, s.2.2)) = fun s => s := by
      funext s; rfl
    rw [he, List.map_id']
  · intro r hr
    simp only [List.mem_map] at hr
    obtain ⟨s, _, rfl⟩ := hr
    exact ⟨rfl, rfl⟩

/-- Witness for C5 at the scenario run. -/
theorem C5_round_trip_witness :
    rowOf 3 2 (1/2, 100, 200) ∈ (runLoop 3 2 6 initState scTicks).rows ∧
    (rowOf 3 2 (1/2, 100, 200)).volt_ch1 =
      adc_to_volt ((rowOf 3 2 (1/2, 100, 200)).adc_ch1 : ℤ) VREF_DEFAULT
        ADC_RES_DEFAULT :=
  have hm : rowOf 3 2 (1/2, 100, 200) ∈
      (runLoop 3 2 6 initState scTicks).rows := by
    rw [runLoop_char, samplesOf_scTicks]
    simp
  ⟨hm, ((C5_round_trip 3 6 2 scTicks).2.2 _ hm).1⟩

/-- C6: with non-decreasing sample times, the notification sequence is
exactly one entry per repetition-index transition (the `transitions` of the
row indices from the initial index 1), and the notified indices are
non-decreasing; in the scenario `duration_per_rep = 3`, `repetitions = 2`
with `"100,200"` at times `0.5, 3.5, 5.9` the samples carry repetitions
`1, 2, 2` and exactly one notification (to `2`) is emitted, at the second
sample. -/
theorem C6_notification_transitions (dur total : ℚ) (reps : ℤ)
    (ticks : List Tick) (hd : 0 < dur) (hr : 1 ≤ reps)
    (h0 : ∀ tk ∈ ticks, 0 ≤ tk.t)
    (hmono : (ticks.map Tick.t).Pairwise (· ≤ ·)) :
    (runLoop dur reps total initState ticks).notifications =
      transitions 1
        ((runLoop dur reps total initState ticks).rows.map Row.rep) ∧
    List.Chain' (· ≤ ·)
      (runLoop dur reps total initState ticks).notifications ∧
    (runLoop 3 2 6 initState scTicks).rows.map Row.rep = [1, 2, 2] ∧
    (runLoop 3 2 6 initState scTicks).notifications = [2] ∧
    (runLoop 3 2 6 initState (scTicks.take 2)).notifications = [2] ∧
    (runLoop 3 2 6 initState (scTicks.take 1)).notifications = [] := by
  refine ⟨?_, ?_, ?_, ?_, ?_, ?_⟩
  · rw [runLoop_char]
    show transitions 1 (repsOf dur reps (samplesOf total ticks)) =
      transitions 1
        (((samplesOf total ticks).map (rowOf dur reps)).map Row.rep)
    rw [rows_map_rep]
  · rw [runLoop_char]
    show List.Chain' (· ≤ ·)
      (transitions 1 (repsOf dur reps (samplesOf total ticks)))
    have := (transitions_lt (repsOf dur reps (samplesOf total ticks)) 1
      (repsOf_pairwise hd hmono) (repsOf_one_le hd hr h0)).2
    exact this.imp fun a b h => le_of_lt h
  · rw [runLoop_char, samplesOf_scTicks]
    show ([((1:ℚ)/2, (100:ℕ), (200:ℕ)), (7/2, 100, 200),
        (59/10, 100, 200)].map (rowOf 3 2)).map Row.rep = [1, 2, 2]
    rw [rows_map_rep]
    norm_num [repsOf, sc_rep1, sc_rep2, sc_rep3]
  · rw [runLoop_char, samplesOf_scTicks]
    show transitions 1 (repsOf 3 2
      [(1/2, 100, 200), (7/2, 100, 200), (59/10, 100, 200)]) = [2]
    norm_num [repsOf, sc_rep1, sc_rep2, sc_rep3, transitions]
  · rw [runLoop_char, samplesOf_scTicks_take2]
    show transitions 1 (repsOf 3 2 [(1/2, 100, 200), (7/2, 100, 200)]) = [2]
    norm_num [repsOf, sc_rep1, sc_rep2, transitions]
  · rw [runLoop_char, samplesOf_scTicks_take1]
    show transitions 1 (repsOf 3 2 [(1/2, 100, 200)]) = []
    norm_num [repsOf, sc_rep1, transitions]

/-- Witness for C6 at the scenario configuration. -/
theorem C6_notification_transitions_witness :
    (runLoop 3 2 6 initState scTicks).notifications = [2] :=
  (C6_notification_transitions 3 6 2 scTicks (by norm_num) (by norm_num)
    (by intro tk htk; fin_cases htk <;> norm_num)
    (by norm_num [scTicks, List.pairwise_cons])).2.2.2.1

/-- C7: a session that parses no line still processes exactly the iterations
whose loop-head elapsed reading is below `total` — termination is decided by
elapsed time, never by sample count — and then takes the empty-session path:
empty buffers, and the export phase warns and writes neither the tabular
file nor the chart, whatever the fault flags, without aborting. -/
theorem C7_zero_sample_session (dur total : ℚ) (reps : ℤ) (ticks : List Tick)
    (hbad : ∀ tk ∈ ticks, ∀ l, tk.lineRead = some l →
      parse_dual_channel l = none) :
    (∀ st, runLoop dur reps total st ticks =
      (ticks.takeWhile (fun tk => decide (tk.check < total))).foldl
        (stepTick dur reps) st) ∧
    (runLoop dur reps total initState ticks).rows = [] ∧
    (runLoop dur reps total initState ticks).timestamps = [] ∧
    ∀ csvFault chartFault,
      exportPhase (runLoop dur reps total initState ticks) csvFault
          chartFault =
        { warnedEmpty := true, csvWritten := false, chartWritten := false,
          aborted := false } := by
  have hsam : samplesOf total ticks = [] := by
    rw [samplesOf, List.filterMap_eq_nil_iff]
    intro tk htk
    have htk' : tk ∈ ticks := (List.takeWhile_sublist _).subset htk
    obtain ⟨c, lr, t⟩ := tk
    unfold parsedOf
    rcases lr with _ | l
    · rfl
    · simp only
      by_cases hl : l = []
      · rw [if_pos hl]
      · rw [if_neg hl, hbad _ htk' l rfl]
  refine ⟨fun st => runLoop_eq_takeWhile dur reps total ticks st, ?_, ?_, ?_⟩
  · rw [runLoop_char, hsam]
    rfl
  · rw [runLoop_char, hsam]
    rfl
  · intro csvFault chartFault
    rw [runLoop_char, hsam]
    rfl

/-- Witness for C7: three ticks carrying `"abc"`, nothing, and an empty
line. -/
theorem C7_zero_sample_session_witness :
    (runLoop DURATION_PER_REP REPETITIONS TOTAL_DURATION initState
      badTicks).rows = [] :=
  (C7_zero_sample_session DURATION_PER_REP TOTAL_DURATION REPETITIONS badTicks
    (by
      intro tk htk l hl
      fin_cases htk
      · cases hl; decide
      · cases hl
      · cases hl; decide)).2.1

/-- C10: after the loop, the four session buffers have equal length (each
successful parse appends exactly one element to each), and with
non-decreasing sample times the `ms` field and the repetition field are
non-decreasing across the rows in append order. -/
theorem C10_parallel_buffers (dur total : ℚ) (reps : ℤ) (ticks : List Tick)
    (hd : 0 < dur) (h0 : ∀ tk ∈ ticks, 0 ≤ tk.t)
    (hmono : (ticks.map Tick.t).Pairwise (· ≤ ·)) :
    ((runLoop dur reps total initState ticks).timestamps.length =
        (runLoop dur reps total initState ticks).emg1.length ∧
      (runLoop dur reps total initState ticks).timestamps.length =
        (runLoop dur reps total initState ticks).emg2.length ∧
      (runLoop dur reps total initState ticks).timestamps.length =
        (runLoop dur reps total initState ticks).rows.length) ∧
    List.Chain' (· ≤ ·)
      ((runLoop dur reps total initState ticks).rows.map Row.ms) ∧
    List.Chain' (· ≤ ·)
      ((runLoop dur reps total initState ticks).rows.map Row.rep) := by
  rw [runLoop_char]
  refine ⟨⟨by simp, by simp, by simp⟩, ?_, ?_⟩
  · show List.Chain' (· ≤ ·)
      (((samplesOf total ticks).map (rowOf dur reps)).map Row.ms)
    rw [rows_map_ms]
    refine List.Pairwise.chain' (List.pairwise_map.mpr ?_)
    refine (samplesOf_fst_pairwise hmono).imp_of_mem ?_
    intro a b ha _ hab
    exact int_trunc_mul_mono (samplesOf_fst_nonneg h0 ha) hab
  · show List.Chain' (· ≤ ·)
      (((samplesOf total ticks).map (rowOf dur reps)).map Row.rep)
    rw [rows_map_rep]
    exact (repsOf_pairwise hd hmono).chain'

/-- Witness for C10 at the scenario run. -/
theorem C10_parallel_buffers_witness :
    (runLoop 3 2 6 initState scTicks).timestamps.length =
      (runLoop 3 2 6 initState scTicks).rows.length :=
  (C10_parallel_buffers 3 6 2 scTicks (by norm_num)
    (by intro tk htk; fin_cases htk <;> norm_num)
    (by norm_num [scTicks, List.pairwise_cons])).1.2.2

/-- C2 counterexample: at a sample time of `0.0017` seconds the exported
`ms` value is `int(1.7) = 1`, while rounding `elapsed * 1000` to the nearest
integer gives `2` — the code truncates, it does not round. -/
theorem C2_counterexample :
    (runLoop DURATION_PER_REP REPETITIONS TOTAL_DURATION initState
        [msTick]).rows.map Row.ms = [1] ∧
    round ((17/10000 : ℚ) * 1000) = 2 := by
  constructor
  · rw [runLoop_char, samplesOf_msTick]
    show ([((17:ℚ)/10000, (100:ℕ), (200:ℕ))].map
      (rowOf DURATION_PER_REP REPETITIONS)).map Row.ms = [1]
    rw [rows_map_ms]
    norm_num [int_trunc]
  · norm_num [round_eq]

/-- C2 (amended): the `ms` field of every exported row is the truncation
toward zero of `elapsed_seconds * 1000` (equal to the floor, since elapsed
times are nonnegative), not the nearest integer. -/
theorem C2_ms_truncation (dur total : ℚ) (reps : ℤ) (ticks : List Tick) :
    (runLoop dur reps total initState ticks).rows.map Row.ms =
      (runLoop dur reps total initState ticks).timestamps.map
        (fun t => int_trunc (t * 1000)) ∧
    ∀ q : ℚ, 0 ≤ q → int_trunc q = ⌊q⌋ := by
  refine ⟨?_, fun q hq => by rw [int_trunc, if_neg (not_lt.mpr hq)]⟩
  rw [runLoop_char]
  exact rows_map_ms dur reps _

/-- Witness for the amended C2. -/
theorem C2_ms_truncation_witness :
    int_trunc (17/10 : ℚ) = ⌊(17/10 : ℚ)⌋ :=
  (C2_ms_truncation DURATION_PER_REP TOTAL_DURATION REPETITIONS []).2
    (17/10) (by norm_num)

/-- C1 counterexample: a session with a non-empty buffer whose CSV write
fails saves no chart, and the escaping exception stops the catalog
iteration before the second gesture — export faults are not contained. -/
theorem C1_counterexample :
    exState.rows ≠ [] ∧ exState.timestamps ≠ [] ∧
    (exportPhase exState true false).chartWritten = false ∧
    (exportPhase exState true false).aborted = true ∧
    runCatalog [(exState, true, false), (exState, false, false)] =
      [exportPhase exState true false] := by
  refine ⟨by simp [exState], by simp [exState], ?_, ?_, ?_⟩
  · simp [exportPhase, exState]
  · simp [exportPhase, exState]
  · simp [runCatalog, exportPhase, exState]

/-- C1 (amended): the CSV file is written before the chart, so a chart fault
never blocks the tabular write; but a CSV fault prevents the chart save, and
either export fault escapes `record_gesture` and aborts the Orchestrator's
iteration over the catalog — the run does not proceed to the next gesture. -/
theorem C1_export_fault_behavior (st : SessionState) (fault : Bool)
    (rest : List (SessionState × Bool × Bool)) (h : st.rows ≠ []) :
    (exportPhase st false fault).csvWritten = true ∧
    (exportPhase st true fault).csvWritten = false ∧
    (exportPhase st true fault).chartWritten = false ∧
    (exportPhase st true fault).aborted = true ∧
    (st.timestamps ≠ [] → (exportPhase st false true).aborted = true) ∧
    runCatalog ((st, true, fault) :: rest) = [exportPhase st true fault] := by
  have hlen : ¬ st.rows.length = 0 := by
    simpa [List.length_eq_zero] using h
  refine ⟨?_, ?_, ?_, ?_, ?_, ?_⟩
  · simp [exportPhase, hlen, apply_ite ExportResult.csvWritten]
  · simp [exportPhase, hlen]
  · simp [exportPhase, hlen]
  · simp [exportPhase, hlen]
  · intro hts
    have hts' : ¬ st.timestamps.length = 0 := by
      simpa [List.length_eq_zero] using hts
    simp [exportPhase, hlen, hts']
  · simp [runCatalog, exportPhase, hlen]

/-- Witness for the amended C1 at the concrete one-sample state. -/
theorem C1_export_fault_behavior_witness :
    (exportPhase exState true false).chartWritten = false ∧
    (exportPhase exState false true).csvWritten = true :=
  ⟨(C1_export_fault_behavior exState false [] (by simp [exState])).2.2.1,
   (C1_export_fault_behavior exState true [] (by simp [exState])).1⟩

end Azmuth
